import Mathlib

/-!
Verification of the stabilizer configuration/visualization scripts.

Source files embedded:
  - src/py/stabilizer/lazyplot.py (OfflineTraceRenderer): real code, embedded
    directly below (linspace, readData, main, exitCode).
  - src/scripts/stabilizer_interface_sr/run_conf.py: a configuration script
    that calls set_stream_length, compute_coeff and the live plotter of the
    external stabilizer_if module, whose code is not in the repository
    snapshot; those operations are modelled from the specification.

Floats are modelled as rationals; a CSV cell that Python's float() accepts is
modelled as (some q), a cell it rejects as none.
-/

namespace Stabilizer

/-- Embedding of numpy.linspace(a, b, n) with endpoint=True, as called by
lazyplot.py line 23: n evenly spaced points from a to b inclusive; for n = 1
numpy returns the single point [a]; for n = 0 the empty array. -/
def linspace (a b : ℚ) (n : ℕ) : List ℚ :=
  if n = 0 then []
  else if n = 1 then [a]
  else (List.range n).map (fun (i : ℕ) => a + (i : ℚ) * (b - a) / ((n : ℚ) - 1))

/-- The error raised when a row's first field does not parse as a number
(Python float() raising ValueError in lazyplot.py line 18; the spec's
ParseError). -/
inductive PlotError where
  | parseErr : PlotError
deriving DecidableEq

/-- The chart handed to matplotlib by lazyplot.py lines 19-25: labels, title,
grid, and the plotted (x, y) series. -/
structure Chart where
  xlabel : String
  ylabel : String
  title : String
  grid : Bool
  xs : List ℚ
  ys : List ℚ
deriving DecidableEq

/-- Embedding of the read loop of lazyplot.py lines 16-18: append
float(row[0]) for each row in order; the first non-parsing field aborts the
whole run with the parse error. -/
def readData : List (Option ℚ) → Except PlotError (List ℚ)
  | [] => .ok []
  | some x :: rest =>
      match readData rest with
      | .ok d => .ok (x :: d)
      | .error e => .error e
  | none :: _ => .error .parseErr

/-- Embedding of main() of lazyplot.py: read all rows, then build the chart
with an evenly spaced frequency axis linspace 10 20000 (len data) and the data
in file order. An error from the read loop propagates before any chart is
built. -/
def main (rows : List (Option ℚ)) : Except PlotError Chart :=
  match readData rows with
  | .error e => .error e
  | .ok data =>
      .ok { xlabel := "Frequency (Hz)", ylabel := "Power (dB)",
            title := "Transfer Function", grid := true,
            xs := linspace 10 20000 data.length, ys := data }

/-- Process exit code of the lazyplot CLI: 0 when main returns, 1 when the
uncaught exception aborts the interpreter. -/
def exitCode (rows : List (Option ℚ)) : ℕ :=
  match main rows with
  | .ok _ => 0
  | .error _ => 1

theorem linspace_length (a b : ℚ) (n : ℕ) : (linspace a b n).length = n := by
  unfold linspace
  split
  · simp_all
  · split
    · simp_all
    · simp

theorem linspace_getElem? (a b : ℚ) (n i : ℕ) (hn : 2 ≤ n) (hi : i < n) :
    (linspace a b n)[i]? = some (a + (i : ℚ) * (b - a) / ((n : ℚ) - 1)) := by
  unfold linspace
  rw [if_neg (by omega), if_neg (by omega)]
  rw [List.getElem?_map, List.getElem?_range hi]
  rfl

theorem linspace_mem_bounds (a b : ℚ) (n : ℕ) (hab : a ≤ b) :
    ∀ x ∈ linspace a b n, a ≤ x ∧ x ≤ b := by
  intro x hx
  unfold linspace at hx
  split at hx
  · simp at hx
  · split at hx
    · simp at hx
      subst hx
      exact ⟨le_refl _, hab⟩
    · rename_i h0 h1
      simp only [List.mem_map, List.mem_range] at hx
      obtain ⟨i, hi, rfl⟩ := hx
      have hn2 : 2 ≤ n := by omega
      have hden : (0 : ℚ) < (n : ℚ) - 1 := by
        have : (2 : ℚ) ≤ (n : ℚ) := by exact_mod_cast hn2
        linarith
      have hnum0 : (0 : ℚ) ≤ (i : ℚ) * (b - a) := by
        have hi0 : (0 : ℚ) ≤ (i : ℚ) := by positivity
        have hba : (0 : ℚ) ≤ b - a := by linarith
        exact mul_nonneg hi0 hba
      constructor
      · have : (0 : ℚ) ≤ (i : ℚ) * (b - a) / ((n : ℚ) - 1) :=
          div_nonneg hnum0 (le_of_lt hden)
        linarith
      · have hi1 : (i : ℚ) ≤ (n : ℚ) - 1 := by
          have : (i : ℚ) + 1 ≤ (n : ℚ) := by exact_mod_cast hi
          linarith
        have hnum : (i : ℚ) * (b - a) ≤ ((n : ℚ) - 1) * (b - a) := by
          have hba : (0 : ℚ) ≤ b - a := by linarith
          exact mul_le_mul_of_nonneg_right hi1 hba
        have : (i : ℚ) * (b - a) / ((n : ℚ) - 1) ≤ b - a := by
          rw [div_le_iff₀ hden]
          calc (i : ℚ) * (b - a) ≤ ((n : ℚ) - 1) * (b - a) := hnum
            _ = (b - a) * ((n : ℚ) - 1) := by ring
        linarith

theorem readData_map_some (vals : List ℚ) :
    readData (vals.map some) = .ok vals := by
  induction vals with
  | nil => rfl
  | cons v vs ih => simp [readData, ih]

theorem readData_error_of_none (rows : List (Option ℚ)) (h : none ∈ rows) :
    readData rows = .error .parseErr := by
  induction rows with
  | nil => simp at h
  | cons r rs ih =>
      match r with
      | none => rfl
      | some x =>
          have hrs : none ∈ rs := by
            rcases List.mem_cons.mp h with h1 | h1
            · exact absurd h1 (by simp)
            · exact h1
          simp [readData, ih hrs]

theorem readData_ok_of_no_none (rows : List (Option ℚ))
    (h : ∀ r ∈ rows, r ≠ none) : ∃ vals, readData rows = .ok vals := by
  induction rows with
  | nil => exact ⟨[], rfl⟩
  | cons r rs ih =>
      match r with
      | none => exact absurd rfl (h none (List.mem_cons_self none rs))
      | some x =>
          obtain ⟨vals, hv⟩ := ih (fun r hr => h r (List.mem_cons_of_mem _ hr))
          exact ⟨x :: vals, by simp [readData, hv]⟩

/-- C2: for every input file whose rows each parse as a number, main builds a
frequency axis with exactly as many points as rows read, each point between
10 Hz and 20000 Hz with consecutive points evenly spaced, and pairs the axis
with the row values in file order. -/
theorem C2_offline_render_axis (vals : List ℚ) (rows : List (Option ℚ))
    (h : rows = vals.map some) :
    ∃ c : Chart, main rows = .ok c ∧
      c.ys = vals ∧
      c.xs = linspace 10 20000 vals.length ∧
      c.xs.length = rows.length ∧
      (∀ x ∈ c.xs, 10 ≤ x ∧ x ≤ 20000) ∧
      (∀ i : ℕ, ∀ x y : ℚ, c.xs[i]? = some x → c.xs[i + 1]? = some y →
        y - x = (20000 - 10) / ((rows.length : ℚ) - 1)) := by
  subst h
  refine ⟨{ xlabel := "Frequency (Hz)", ylabel := "Power (dB)",
            title := "Transfer Function", grid := true,
            xs := linspace 10 20000 vals.length, ys := vals },
          by simp [main, readData_map_some], rfl, rfl, ?_, ?_, ?_⟩
  · simp [linspace_length]
  · exact linspace_mem_bounds 10 20000 _ (by norm_num)
  · intro i x y hx hy
    have hi1 : i + 1 < vals.length := by
      by_contra hcon
      have hnone : (linspace 10 20000 vals.length)[i + 1]? = none := by
        apply List.getElem?_eq_none
        rw [linspace_length]
        omega
      rw [hnone] at hy
      exact Option.noConfusion hy
    have hn2 : 2 ≤ vals.length := by omega
    rw [linspace_getElem? _ _ _ i hn2 (by omega)] at hx
    rw [linspace_getElem? _ _ _ (i + 1) hn2 hi1] at hy
    have hx' := Option.some.inj hx
    have hy' := Option.some.inj hy
    subst hx'
    subst hy'
    have hd : ((vals.length : ℚ) - 1) ≠ 0 := by
      have : (2 : ℚ) ≤ (vals.length : ℚ) := by exact_mod_cast hn2
      intro hc
      linarith
    rw [List.length_map]
    push_cast
    field_simp
    ring

/-- Witness for C2 on the 3-row file [-10, -5, 0]; its axis is the three
evenly spaced points 10, 10005, 20000. -/
theorem C2_offline_render_axis_witness :
    (∃ c : Chart, main [some (-10), some (-5), some 0] = .ok c ∧
      c.ys = [-10, -5, 0] ∧
      c.xs = linspace 10 20000 ([(-10 : ℚ), -5, 0]).length ∧
      c.xs.length = ([some ((-10 : ℚ)), some (-5), some 0]).length ∧
      (∀ x ∈ c.xs, 10 ≤ x ∧ x ≤ 20000) ∧
      (∀ i : ℕ, ∀ x y : ℚ, c.xs[i]? = some x → c.xs[i + 1]? = some y →
        y - x = (20000 - 10) / ((([some ((-10 : ℚ)), some (-5), some 0]).length : ℚ) - 1))) ∧
    linspace 10 20000 3 = [10, 10005, 20000] :=
  ⟨C2_offline_render_axis [-10, -5, 0] [some (-10), some (-5), some 0] rfl,
   by norm_num [linspace, List.range_succ]⟩

/-- C8: an input with a row whose first field does not parse fails with the
fatal parse error before any chart is built and the CLI exits non-zero; an
input whose rows all parse yields a chart and exit code 0. -/
theorem C8_parse_error_aborts (rows : List (Option ℚ)) :
    (none ∈ rows → main rows = .error .parseErr ∧ exitCode rows ≠ 0) ∧
    ((∀ r ∈ rows, r ≠ none) → (∃ c, main rows = .ok c) ∧ exitCode rows = 0) := by
  constructor
  · intro h
    have he := readData_error_of_none rows h
    refine ⟨by simp [main, he], by simp [exitCode, main, he]⟩
  · intro h
    obtain ⟨vals, hv⟩ := readData_ok_of_no_none rows h
    refine ⟨⟨{ xlabel := "Frequency (Hz)", ylabel := "Power (dB)",
               title := "Transfer Function", grid := true,
               xs := linspace 10 20000 vals.length, ys := vals },
             by simp [main, hv]⟩, by simp [exitCode, main, hv]⟩

/-- Witness for C8: the file [1, <garbage>] aborts with the parse error and
exits non-zero; the file [2] succeeds with exit code 0. -/
theorem C8_parse_error_aborts_witness :
    (main [some 1, none] = .error .parseErr ∧ exitCode [some 1, none] ≠ 0) ∧
    ((∃ c, main [some 2] = .ok c) ∧ exitCode [some 2] = 0) :=
  ⟨(C8_parse_error_aborts [some 1, none]).1 (by simp),
   (C8_parse_error_aborts [some 2]).2 (by simp)⟩

/-- C9: a one-row file places its single value at the lower frequency bound:
the axis is exactly [10], as numpy.linspace(10, 20000, 1) returns the start
point only. -/
theorem C9_single_row_axis (x : ℚ) :
    ∃ c : Chart, main [some x] = .ok c ∧ c.xs = [10] ∧ c.ys = [x] :=
  ⟨{ xlabel := "Frequency (Hz)", ylabel := "Power (dB)",
     title := "Transfer Function", grid := true, xs := [10], ys := [x] },
   rfl, rfl, rfl⟩

/-- C10: an empty input file completes without error: main returns an empty
chart (empty data list, empty frequency axis) and the CLI exits 0. -/
theorem C10_empty_file_ok :
    main [] = .ok { xlabel := "Frequency (Hz)", ylabel := "Power (dB)",
                    title := "Transfer Function", grid := true,
                    xs := [], ys := [] } ∧
    exitCode ([] : List (Option ℚ)) = 0 :=
  ⟨rfl, rfl⟩

/-- Modelled from the spec: the unit of a StreamRequest (spec section 3).
The set_stream_length operation of the external stabilizer_if module, called
at run_conf.py line 21, is not in the repository snapshot. -/
inductive StreamUnit where
  | frames
  | seconds
  | milliseconds
deriving DecidableEq

/-- Modelled from the spec: conversion of requested_length to the raw
(unrounded) frame count, spec section 4.2: multiply by sampling_freq for
seconds, by sampling_freq/1000 for milliseconds, pass through for frames. -/
def framesFloat (requested_length : ℚ) (unit : StreamUnit) (sampling_freq : ℚ) : ℚ :=
  match unit with
  | .seconds => requested_length * sampling_freq
  | .milliseconds => requested_length * sampling_freq / 1000
  | .frames => requested_length

/-- Modelled from the spec: set_stream_length rounds the raw frame count up to
the nearest multiple of batch_size, never down (spec section 4.2), yielding
the resolved frame count. -/
def set_stream_length (requested_length : ℚ) (unit : StreamUnit)
    (sampling_freq : ℚ) (batch_size : ℤ) : ℤ :=
  batch_size * ⌈framesFloat requested_length unit sampling_freq / (batch_size : ℚ)⌉

/-- C1: for positive requested_length, sampling_freq and batch_size, the
resolved frame count is positive, a multiple of batch_size, and at least the
raw unrounded requested frame count (rounding is up, never down). -/
theorem C1_stream_length_rounds_up (len : ℚ) (u : StreamUnit) (fs : ℚ) (b : ℤ)
    (hlen : 0 < len) (hfs : 0 < fs) (hb : 0 < b) :
    0 < set_stream_length len u fs b ∧
    b ∣ set_stream_length len u fs b ∧
    framesFloat len u fs ≤ (set_stream_length len u fs b : ℚ) := by
  have hff : 0 < framesFloat len u fs := by
    cases u with
    | frames => exact hlen
    | seconds => exact mul_pos hlen hfs
    | milliseconds => exact div_pos (mul_pos hlen hfs) (by norm_num)
  have hbq : (0 : ℚ) < (b : ℚ) := by exact_mod_cast hb
  refine ⟨?_, dvd_mul_right b _, ?_⟩
  · have hceil : 0 < ⌈framesFloat len u fs / (b : ℚ)⌉ := by
      rw [Int.ceil_pos]
      exact div_pos hff hbq
    exact mul_pos hb hceil
  · have h1 : framesFloat len u fs / (b : ℚ) ≤ (⌈framesFloat len u fs / (b : ℚ)⌉ : ℚ) :=
      Int.le_ceil _
    have h2 : framesFloat len u fs = (b : ℚ) * (framesFloat len u fs / (b : ℚ)) := by
      field_simp
    rw [set_stream_length]
    push_cast
    calc framesFloat len u fs
        = (b : ℚ) * (framesFloat len u fs / (b : ℚ)) := h2
      _ ≤ (b : ℚ) * (⌈framesFloat len u fs / (b : ℚ)⌉ : ℚ) :=
          mul_le_mul_of_nonneg_left h1 (le_of_lt hbq)

/-- Witness for C1: a 3 second request at 2 Hz with batch size 4 resolves to
a positive multiple of 4 that is at least the raw 6 frames. -/
theorem C1_stream_length_rounds_up_witness :
    0 < set_stream_length 3 .seconds 2 4 ∧
    (4 : ℤ) ∣ set_stream_length 3 .seconds 2 4 ∧
    framesFloat 3 .seconds 2 ≤ (set_stream_length 3 .seconds 2 4 : ℚ) :=
  C1_stream_length_rounds_up 3 .seconds 2 4 (by norm_num) (by norm_num) (by norm_num)

/-- C6: unit conversion consistency: a request of 10 seconds at 1000 Hz gives
the same frame count as 10000 milliseconds; in general milliseconds are
seconds scaled by 1000, seconds multiply by sampling_freq, milliseconds by
sampling_freq/1000, and frames pass through unchanged. -/
theorem C6_unit_conversion_consistent :
    set_stream_length 10 .seconds 1000 1 = set_stream_length 10000 .milliseconds 1000 1 ∧
    (∀ len fs : ℚ, ∀ b : ℤ,
      set_stream_length (len * 1000) .milliseconds fs b =
        set_stream_length len .seconds fs b) ∧
    (∀ len fs : ℚ,
      framesFloat len .seconds fs = len * fs ∧
      framesFloat len .milliseconds fs = len * fs / 1000 ∧
      framesFloat len .frames fs = len) := by
  have hms : ∀ len fs : ℚ, framesFloat (len * 1000) .milliseconds fs =
      framesFloat len .seconds fs := by
    intro len fs
    simp only [framesFloat]
    ring
  refine ⟨?_, ?_, fun len fs => ⟨rfl, rfl, rfl⟩⟩
  · have h1 : (10000 : ℚ) * 1000 / 1000 = 10 * 1000 := by norm_num
    simp only [set_stream_length, framesFloat, h1]
  · intro len fs b
    rw [set_stream_length, set_stream_length, hms]

/-- Filter coefficients in the stabilizer ba = [b0, b1, b2, a1, a2]
convention (run_conf.py line 29 assigns a 5-element list), feedback taps
already negated, so the filter recurrence is
y[n] = b0 x[n] + b1 x[n-1] + b2 x[n-2] + a1 y[n-1] + a2 y[n-2]. -/
structure FilterCoefficients where
  b0 : ℚ
  b1 : ℚ
  b2 : ℚ
  a1 : ℚ
  a2 : ℚ
deriving DecidableEq

/-- Modelled from the spec: compute_coeff of the external stabilizer_if
module (called at run_conf.py line 28) is not in the repository snapshot.
Spec section 4.1 fixes a contract rather than a formula: one documented
discretization rule (backward difference, s mapped to (1 - 1/z)/T, is used
here), such that Ki = 0 yields a filter with no integral pole and all-zero
gains yield the pass-through coefficients. -/
def compute_coeff (Kp Ki Kd T : ℚ) : FilterCoefficients :=
  if Ki = 0 then
    if Kp = 0 ∧ Kd = 0 then ⟨1, 0, 0, 0, 0⟩
    else ⟨Kp + Kd / T, -(Kd / T), 0, 0, 0⟩
  else ⟨Kp + Ki * T + Kd / T, -(Kp + 2 * Kd / T), Kd / T, 1, 0⟩

/-- Delay-line state of the biquad: last two inputs and last two outputs. -/
structure IirState where
  x1 : ℚ
  x2 : ℚ
  y1 : ℚ
  y2 : ℚ
deriving DecidableEq

/-- One filter evaluation: the output and the shifted state. -/
def iirStep (c : FilterCoefficients) (st : IirState) (x : ℚ) : ℚ × IirState :=
  let y := c.b0 * x + c.b1 * st.x1 + c.b2 * st.x2 + c.a1 * st.y1 + c.a2 * st.y2
  (y, ⟨x, st.x1, y, st.y1⟩)

/-- Run the biquad over an input sequence from a given state. -/
def iirRunFrom (c : FilterCoefficients) : IirState → List ℚ → List ℚ
  | _, [] => []
  | st, x :: xs =>
      let p := iirStep c st x
      p.1 :: iirRunFrom c p.2 xs

/-- Run the biquad from the zero-initialized state. -/
def iirRun (c : FilterCoefficients) (xs : List ℚ) : List ℚ :=
  iirRunFrom c ⟨0, 0, 0, 0⟩ xs

/-- Reference PD (first-order FIR) evolution: output g0 x[n] + g1 x[n-1],
carrying the previous input. -/
def pdRunFrom (g0 g1 : ℚ) : ℚ → List ℚ → List ℚ
  | _, [] => []
  | xp, x :: xs => (g0 * x + g1 * xp) :: pdRunFrom g0 g1 x xs

/-- Reference PI evolution: output kp x[n] + kiT (running sum of inputs),
carrying the running sum. -/
def piRunFrom (kp kiT : ℚ) : ℚ → List ℚ → List ℚ
  | _, [] => []
  | acc, x :: xs => (kp * x + kiT * (acc + x)) :: piRunFrom kp kiT (acc + x) xs

theorem iirRunFrom_fir (c : FilterCoefficients) (hb2 : c.b2 = 0)
    (ha1 : c.a1 = 0) (ha2 : c.a2 = 0) :
    ∀ (xs : List ℚ) (st : IirState),
      iirRunFrom c st xs = pdRunFrom c.b0 c.b1 st.x1 xs := by
  intro xs
  induction xs with
  | nil => intro st; rfl
  | cons x rest ih =>
      intro st
      simp [iirRunFrom, iirStep, pdRunFrom, hb2, ha1, ha2, ih]

theorem pdRunFrom_id : ∀ (xs : List ℚ) (xp : ℚ), pdRunFrom 1 0 xp xs = xs := by
  intro xs
  induction xs with
  | nil => intro xp; rfl
  | cons x rest ih =>
      intro xp
      simp [pdRunFrom, ih]

theorem pdRunFrom_p (kp : ℚ) :
    ∀ (xs : List ℚ) (xp : ℚ), pdRunFrom kp 0 xp xs = xs.map (fun x => kp * x) := by
  intro xs
  induction xs with
  | nil => intro xp; rfl
  | cons x rest ih =>
      intro xp
      simp [pdRunFrom, ih]

theorem piRunFrom_p (kp : ℚ) :
    ∀ (xs : List ℚ) (acc : ℚ), piRunFrom kp 0 acc xs = xs.map (fun x => kp * x) := by
  intro xs
  induction xs with
  | nil => intro acc; rfl
  | cons x rest ih =>
      intro acc
      simp [piRunFrom, ih]

theorem iirRunFrom_pi (kp kiT : ℚ) :
    ∀ (xs : List ℚ) (x1 x2 y2 acc : ℚ),
      iirRunFrom ⟨kp + kiT, -kp, 0, 1, 0⟩ ⟨x1, x2, kp * x1 + kiT * acc, y2⟩ xs
        = piRunFrom kp kiT acc xs := by
  intro xs
  induction xs with
  | nil => intros; rfl
  | cons x rest ih =>
      intro x1 x2 y2 acc
      have hy : (kp + kiT) * x + -kp * x1 + 0 * x2 + 1 * (kp * x1 + kiT * acc) + 0 * y2
          = kp * x + kiT * (acc + x) := by ring
      simp only [iirRunFrom, iirStep, piRunFrom]
      rw [hy]
      exact congrArg _ (ih x x1 (kp * x1 + kiT * acc) (acc + x))

theorem iirRun_pi (kp kiT : ℚ) (xs : List ℚ) :
    iirRun ⟨kp + kiT, -kp, 0, 1, 0⟩ xs = piRunFrom kp kiT 0 xs := by
  have h0 : (⟨0, 0, 0, 0⟩ : IirState) = ⟨0, 0, kp * 0 + kiT * 0, 0⟩ := by
    have : kp * 0 + kiT * 0 = 0 := by ring
    rw [this]
  rw [iirRun, h0]
  exact iirRunFrom_pi kp kiT xs 0 0 0 0

/-- C3: structure of the derived coefficients with respect to the gains.
If Ki = 0 the filter has no feedback taps (no integral pole) and its run on
any input is the pure PD evolution; if Kd = 0 there is no second-order input
tap and, except in the all-zero pass-through case, the run is the pure PI
evolution with no derivative contribution; if Kp = Ki = Kd = 0 the run
returns the input sequence unchanged (pass-through, clamp and offset aside). -/
theorem C3_compute_coeff_gain_structure (Kp Ki Kd T : ℚ) (hT : 0 < T) :
    (Ki = 0 →
      (compute_coeff Kp Ki Kd T).a1 = 0 ∧ (compute_coeff Kp Ki Kd T).a2 = 0 ∧
      ∀ xs : List ℚ,
        iirRun (compute_coeff Kp Ki Kd T) xs =
          pdRunFrom (compute_coeff Kp Ki Kd T).b0 (compute_coeff Kp Ki Kd T).b1 0 xs) ∧
    (Kd = 0 →
      (compute_coeff Kp Ki Kd T).b2 = 0 ∧
      (¬(Kp = 0 ∧ Ki = 0) →
        ∀ xs : List ℚ,
          iirRun (compute_coeff Kp Ki Kd T) xs = piRunFrom Kp (Ki * T) 0 xs)) ∧
    (Kp = 0 → Ki = 0 → Kd = 0 →
      ∀ xs : List ℚ, iirRun (compute_coeff Kp Ki Kd T) xs = xs) := by
  refine ⟨?_, ?_, ?_⟩
  · intro hKi
    subst hKi
    have hfir : ∀ c : FilterCoefficients, c.b2 = 0 → c.a1 = 0 → c.a2 = 0 →
        ∀ xs : List ℚ, iirRun c xs = pdRunFrom c.b0 c.b1 0 xs := by
      intro c h1 h2 h3 xs
      exact iirRunFrom_fir c h1 h2 h3 xs ⟨0, 0, 0, 0⟩
    by_cases hpd : Kp = 0 ∧ Kd = 0
    · rw [compute_coeff, if_pos rfl, if_pos hpd]
      exact ⟨rfl, rfl, hfir _ rfl rfl rfl⟩
    · rw [compute_coeff, if_pos rfl, if_neg hpd]
      exact ⟨rfl, rfl, hfir _ rfl rfl rfl⟩
  · intro hKd
    subst hKd
    constructor
    · by_cases hKi : Ki = 0
      · by_cases hpd : Kp = 0 ∧ (0 : ℚ) = 0
        · rw [compute_coeff, if_pos hKi, if_pos hpd]
        · rw [compute_coeff, if_pos hKi, if_neg hpd]
      · rw [compute_coeff, if_neg hKi]
        simp
    · intro hnz xs
      by_cases hKi : Ki = 0
      · have hKp : ¬(Kp = 0) := fun h => hnz ⟨h, hKi⟩
        subst hKi
        rw [compute_coeff, if_pos rfl, if_neg (fun h => hKp h.1)]
        have hc : (⟨Kp + 0 / T, -(0 / T), 0, 0, 0⟩ : FilterCoefficients)
            = ⟨Kp, 0, 0, 0, 0⟩ := by
          simp
        rw [hc]
        have h1 := iirRunFrom_fir (⟨Kp, 0, 0, 0, 0⟩ : FilterCoefficients)
          rfl rfl rfl xs ⟨0, 0, 0, 0⟩
        rw [iirRun, h1, pdRunFrom_p, zero_mul, piRunFrom_p]
      · rw [compute_coeff, if_neg hKi]
        have hc : (⟨Kp + Ki * T + 0 / T, -(Kp + 2 * 0 / T), 0 / T, 1, 0⟩ :
            FilterCoefficients) = ⟨Kp + Ki * T, -Kp, 0, 1, 0⟩ := by
          simp
        rw [hc]
        exact iirRun_pi Kp (Ki * T) xs
  · intro hKp hKi hKd xs
    subst hKp; subst hKi; subst hKd
    rw [compute_coeff, if_pos rfl, if_pos ⟨rfl, rfl⟩]
    have h1 := iirRunFrom_fir (⟨1, 0, 0, 0, 0⟩ : FilterCoefficients)
      rfl rfl rfl xs ⟨0, 0, 0, 0⟩
    rw [iirRun, h1]
    exact pdRunFrom_id xs 0

/-- Witness for C3: with all gains zero and sample interval 1, the filter
passes the sequence [3, 4, 5] through unchanged. -/
theorem C3_compute_coeff_gain_structure_witness :
    iirRun (compute_coeff 0 0 0 1) [3, 4, 5] = [3, 4, 5] :=
  (C3_compute_coeff_gain_structure 0 0 0 1 (by norm_num)).2.2 rfl rfl rfl [3, 4, 5]

/-- Modelled from the spec: the ControllerSpec record of spec section 3 as
populated by run_conf.py lines 25-32 (gains Kp, Ki, Kd, the sample interval
sampling_freq/batch_size, and the clamp fields y_offset, y_min, y_max carried
alongside the coefficients). -/
structure ControllerSpec where
  Kp : ℚ
  Ki : ℚ
  Kd : ℚ
  sample_interval : ℚ
  y_offset : ℚ
  y_min : ℚ
  y_max : ℚ
deriving DecidableEq

/-- Modelled from the spec: derive (spec section 4.1) computes the filter
coefficients from the gains and the sample interval only. -/
def derive (s : ControllerSpec) : FilterCoefficients :=
  compute_coeff s.Kp s.Ki s.Kd s.sample_interval

/-- Modelled from the spec: offset and clamping applied to one filter output
at execution time (spec section 4.1), after the evaluation. -/
def clampedOutput (s : ControllerSpec) (y : ℚ) : ℚ :=
  min s.y_max (max s.y_min (y + s.y_offset))

/-- Modelled from the spec: one controller step, a filter evaluation followed
by the output clamp; the clamp never alters the taps or the delay line. -/
def controllerStep (s : ControllerSpec) (st : IirState) (x : ℚ) : ℚ × IirState :=
  let p := iirStep (derive s) st x
  (clampedOutput s p.1, p.2)

/-- C4: derive is a pure, deterministic function of Kp, Ki, Kd and
sample_interval: any two specs that agree on those four fields produce
identical coefficient records, so repeating the call reproduces them
bit for bit. -/
theorem C4_derive_deterministic (s1 s2 : ControllerSpec)
    (hvalid : 0 < s1.sample_interval)
    (hKp : s1.Kp = s2.Kp) (hKi : s1.Ki = s2.Ki) (hKd : s1.Kd = s2.Kd)
    (hT : s1.sample_interval = s2.sample_interval) :
    derive s1 = derive s2 := by
  unfold derive
  rw [hKp, hKi, hKd, hT]

/-- Witness for C4: the run_conf.py gains (-0.1, -100, -0.00002) with two
different clamp configurations derive the same coefficients. -/
theorem C4_derive_deterministic_witness :
    derive ⟨-(1/10), -100, -(1/50000), 1/1000, 0, -2, 2⟩ =
      derive ⟨-(1/10), -100, -(1/50000), 1/1000, 1, -1, 1⟩ :=
  C4_derive_deterministic
    ⟨-(1/10), -100, -(1/50000), 1/1000, 0, -2, 2⟩
    ⟨-(1/10), -100, -(1/50000), 1/1000, 1, -1, 1⟩
    (by norm_num) rfl rfl rfl rfl

/-- C5: the derived coefficients are independent of the clamp fields:
replacing y_offset, y_min, y_max leaves derive unchanged; clamping acts on
each filter output after the evaluation (the delay line is the one the bare
filter produces) and keeps the output within [y_min, y_max] when the bounds
are ordered, without any change to the taps. -/
theorem C5_clamp_orthogonal (s : ControllerSpec) (off mn mx : ℚ) :
    derive { s with y_offset := off, y_min := mn, y_max := mx } = derive s ∧
    (∀ st x, controllerStep s st x =
      (clampedOutput s (iirStep (derive s) st x).1, (iirStep (derive s) st x).2)) ∧
    (s.y_min ≤ s.y_max →
      ∀ st x, s.y_min ≤ (controllerStep s st x).1 ∧ (controllerStep s st x).1 ≤ s.y_max) := by
  refine ⟨rfl, fun st x => rfl, fun hmm st x => ⟨?_, ?_⟩⟩
  · exact le_min hmm (le_max_left _ _)
  · exact min_le_left _ _

/-- Witness for C5: with ordered bounds [-2, 2], a concrete controller step
lands inside the clamp window. -/
theorem C5_clamp_orthogonal_witness :
    (⟨0, 0, 0, 1, 0, -2, 2⟩ : ControllerSpec).y_min ≤
        (controllerStep ⟨0, 0, 0, 1, 0, -2, 2⟩ ⟨0, 0, 0, 0⟩ 5).1 ∧
      (controllerStep ⟨0, 0, 0, 1, 0, -2, 2⟩ ⟨0, 0, 0, 0⟩ 5).1 ≤
        (⟨0, 0, 0, 1, 0, -2, 2⟩ : ControllerSpec).y_max :=
  (C5_clamp_orthogonal ⟨0, 0, 0, 1, 0, -2, 2⟩ 0 (-2) 2).2.2 (by norm_num) ⟨0, 0, 0, 0⟩ 5

/-- Modelled from the spec: the live plotter of the external stabilizer_if
module (configured at run_conf.py lines 43-45 via plot.tolerance and
plot.refresh_ylim) is not in the repository snapshot. This is the per-channel
significance test of spec section 4.3: the (min, max) of the channel's
current buffer against its value at the last redraw; the fractional change
exceeds the tolerance when the absolute change is larger than tolerance
times the old magnitude (the multiplicative form, which also covers an old
value of zero). -/
def chanExceeds (tol : ℚ) (old new : ℚ × ℚ) : Bool :=
  decide (tol * |old.1| < |new.1 - old.1|) || decide (tol * |old.2| < |new.2 - old.2|)

/-- Modelled from the spec: the redraw decision on new data (spec section
4.3): unconditional when refresh_ylim is false (fixed-limit mode), otherwise
only when at least one plotted channel's min/max moved by more than
refresh_tolerance since the last redraw. -/
def redrawTriggered (refresh_ylim : Bool) (tol : ℚ)
    (base snap : List (ℚ × ℚ)) : Bool :=
  !refresh_ylim || (base.zip snap).any (fun p => chanExceeds tol p.1 p.2)

/-- Modelled from the spec: the number of redraw events over a run of the
plotter. Each arriving buffer snapshot (one (min, max) per plotted channel)
is tested against the snapshot recorded at the last redraw; a triggered
redraw makes the arriving snapshot the new baseline. -/
def redrawCount (refresh_ylim : Bool) (tol : ℚ) :
    List (ℚ × ℚ) → List (List (ℚ × ℚ)) → ℕ
  | _, [] => 0
  | base, s :: rest =>
      if redrawTriggered refresh_ylim tol base s then
        1 + redrawCount refresh_ylim tol s rest
      else
        redrawCount refresh_ylim tol base rest

theorem redrawCount_false_eq_length (tol : ℚ) :
    ∀ (snaps : List (List (ℚ × ℚ))) (base : List (ℚ × ℚ)),
      redrawCount false tol base snaps = snaps.length := by
  intro snaps
  induction snaps with
  | nil => intro base; rfl
  | cons s rest ih =>
      intro base
      have ht : redrawTriggered false tol base s = true := rfl
      simp [redrawCount, ht, ih]
      omega

theorem redrawCount_true_zero (tol : ℚ) :
    ∀ (snaps : List (List (ℚ × ℚ))) (base : List (ℚ × ℚ)),
      (∀ t ∈ snaps, redrawTriggered true tol base t = false) →
      redrawCount true tol base snaps = 0 := by
  intro snaps
  induction snaps with
  | nil => intro base h; rfl
  | cons s rest ih =>
      intro base h
      have hs : redrawTriggered true tol base s = false :=
        h s (List.mem_cons_self s rest)
      simp only [redrawCount, hs, Bool.false_eq_true, if_false]
      exact ih base (fun t ht => h t (List.mem_cons_of_mem _ ht))

/-- C7: refresh policy of the live plotter. In fixed-limit mode
(refresh_ylim = false) every arriving snapshot redraws; in auto-ylim mode a
run whose snapshots never move min/max past the tolerance redraws zero
times, and a run consisting of sub-tolerance snapshots, one snapshot
exceeding the tolerance, then snapshots sub-tolerance relative to it,
redraws exactly once. -/
theorem C7_refresh_policy (tol : ℚ) (base s : List (ℚ × ℚ))
    (pre post : List (List (ℚ × ℚ))) :
    (∀ (b : List (ℚ × ℚ)) (snaps : List (List (ℚ × ℚ))),
      redrawCount false tol b snaps = snaps.length) ∧
    ((∀ t ∈ pre ++ post, redrawTriggered true tol base t = false) →
      redrawCount true tol base (pre ++ post) = 0) ∧
    ((∀ t ∈ pre, redrawTriggered true tol base t = false) →
      redrawTriggered true tol base s = true →
      (∀ t ∈ post, redrawTriggered true tol s t = false) →
      redrawCount true tol base (pre ++ s :: post) = 1) := by
  refine ⟨fun b snaps => redrawCount_false_eq_length tol snaps b, ?_, ?_⟩
  · intro h
    exact redrawCount_true_zero tol (pre ++ post) base h
  · intro hpre hs hpost
    induction pre with
    | nil =>
        simp only [List.nil_append, redrawCount, hs, if_true]
        rw [redrawCount_true_zero tol post s hpost]
    | cons t rest ih =>
        have ht : redrawTriggered true tol base t = false :=
          hpre t (List.mem_cons_self t rest)
        simp only [List.cons_append, redrawCount, ht, Bool.false_eq_true, if_false]
        exact ih (fun u hu => hpre u (List.mem_cons_of_mem _ hu))

/-- Witness for C7: one channel, tolerance 1/5, baseline (0, 10); the
snapshot (0, 11) stays within tolerance, (0, 13) exceeds it, and a following
(0, 12) is within tolerance of the new baseline: exactly one redraw. -/
theorem C7_refresh_policy_witness :
    redrawCount true (1/5) [((0 : ℚ), (10 : ℚ))]
      ([[((0 : ℚ), (11 : ℚ))]] ++ [((0 : ℚ), (13 : ℚ))] :: [[((0 : ℚ), (12 : ℚ))]]) = 1 :=
  (C7_refresh_policy (1/5) [(0, 10)] [(0, 13)] [[(0, 11)]] [[(0, 12)]]).2.2
    (by
      intro t ht
      simp only [List.mem_singleton] at ht
      subst ht
      norm_num [redrawTriggered, chanExceeds])
    (by norm_num [redrawTriggered, chanExceeds])
    (by
      intro t ht
      simp only [List.mem_singleton] at ht
      subst ht
      norm_num [redrawTriggered, chanExceeds])

end Stabilizer
